import Mathlib

/-!
Verification of the Reading Fluency Alignment Engine of word-analyzer-v2
(`src/app.js`): word normalization, similarity scoring, the OCR range
locator, the expected/spoken sequence aligner, error-pattern analysis and
prosody metrics.  Every definition is a direct shallow embedding of the
corresponding JavaScript function; JS numbers are modelled as exact
rationals (`ℚ`), JS strings as `String`/`List Char`, absent (`undefined`)
fields as `Option`.
-/

unseal Rat.add Rat.mul Rat.inv Rat.sub Rat.ofScientific

/-- The apostrophe character (code point 39), built numerically. -/
def apos : Char := Char.ofNat 39

/-- JS `s.toLowerCase()` (ASCII range, which is all the engine compares). -/
def toLowerString (s : String) : String := String.mk (s.data.map Char.toLower)

/-- `normalizeWord` (app.js): `word.toLowerCase().replace(/[^a-z0-9]/g, '')`. -/
def normalizeWord (word : String) : String :=
  String.mk ((word.data.map Char.toLower).filter fun c => c.isLower || c.isDigit)

/-- Filler-word list of `isFillerWord` (app.js). -/
def fillers : List String := ["um", "uh", "er", "ah", "like", "you know", "i mean"]

/-- `isFillerWord` (app.js): membership of the lower-cased word in `fillers`. -/
def isFillerWord (word : String) : Bool := fillers.contains (toLowerString word)

/-- Fuelled core of `levenshteinDistance` (app.js).  The source fills the
standard `(m+1)×(n+1)` edit-distance table `dp[i][j]` with unit
insert/delete/substitute costs; this is the same recurrence, memoisation
replaced by recomputation, with a fuel argument so that the recursion is
structural (the fuel is always at least the sum of the lengths, so the
fuel-exhausted branch is never taken). -/
def levAux : Nat → List Char → List Char → Nat
  | _, [], ys => ys.length
  | _, x :: xs, [] => (x :: xs).length
  | 0, _ :: _, _ :: _ => 0
  | f + 1, x :: xs, y :: ys =>
    if x = y then levAux f xs ys
    else 1 + min (min (levAux f xs (y :: ys)) (levAux f (x :: xs) ys)) (levAux f xs ys)

/-- `levenshteinDistance` (app.js). -/
def levenshteinDistance (str1 str2 : String) : Nat :=
  levAux (str1.data.length + str2.data.length) str1.data str2.data

/-- The consonant-class map of `getPhoneticCode` (app.js): the `phonemeMap`
object literal. -/
def phonemeMap (c : Char) : Option Char :=
  if c = 'b' ∨ c = 'f' ∨ c = 'p' ∨ c = 'v' then some '1'
  else if c = 'c' ∨ c = 'g' ∨ c = 'j' ∨ c = 'k' ∨ c = 'q' ∨ c = 's' ∨ c = 'x' ∨ c = 'z' then
    some '2'
  else if c = 'd' ∨ c = 't' then some '3'
  else if c = 'l' then some '4'
  else if c = 'm' ∨ c = 'n' then some '5'
  else if c = 'r' then some '6'
  else none

/-- The character loop of `getPhoneticCode` (app.js): walk the remaining
characters while the code is shorter than 4, appending the phoneme class
when it exists and differs from the last appended class; an unmapped
character (vowel) resets the last-class tracker (`lastCode = ''`,
modelled as `none`). -/
def phoneticLoop : List Char → List Char → Option Char → List Char
  | [], code, _ => code
  | c :: rest, code, lastCode =>
    if 4 ≤ code.length then code
    else
      match phonemeMap c.toLower with
      | some d =>
        if lastCode ≠ some d then phoneticLoop rest (code ++ [d]) (some d)
        else phoneticLoop rest code lastCode
      | none => phoneticLoop rest code none

/-- `getPhoneticCode` (app.js): `null` for words shorter than 2 characters,
otherwise first letter upper-cased followed by consonant-class digits,
padded with `'0'` to length 4. -/
def getPhoneticCode (word : String) : Option String :=
  if word.data.length < 2 then none
  else
    let code := phoneticLoop word.data.tail [(word.data.headD 'a').toUpper] none
    some (String.mk (code ++ List.replicate (4 - code.length) '0'))

/-- The phonetic-equality test of `calculateWordSimilarity` (app.js):
`phonetic1 && phonetic2 && phonetic1 === phonetic2`. -/
def phoneticSame (word1 word2 : String) : Bool :=
  match getPhoneticCode word1, getPhoneticCode word2 with
  | some p1, some p2 => p1 == p2
  | _, _ => false

/-- Fuelled global string replacement, modelling JS
`str.replace(new RegExp(pat, 'g'), rep)` for a literal non-empty pattern:
non-overlapping occurrences are replaced left to right.  The fuel is the
length of the string, which suffices because every step consumes at least
one character (all patterns used by the source are non-empty). -/
def replaceAllAux (pat rep : List Char) : Nat → List Char → List Char
  | _, [] => []
  | 0, s => s
  | f + 1, c :: rest =>
    if pat.isPrefixOf (c :: rest) then
      rep ++ replaceAllAux pat rep f (rest.drop (pat.length - 1))
    else c :: replaceAllAux pat rep f rest

/-- JS `s.replace(new RegExp(pat, 'g'), rep)` for a literal pattern. -/
def jsReplaceAll (s pat rep : String) : String :=
  String.mk (replaceAllAux pat.data rep.data s.data.length s.data)

/-- The `ocrConfusions` character-substitution pairs of
`areCommonConfusions` (app.js). -/
def ocrConfusions : List (String × String) :=
  [("0", "o"), ("1", "l"), ("1", "i"), ("5", "s"),
   ("8", "b"), ("rn", "m"), ("cl", "d"), ("vv", "w")]

/-- The `wordConfusions` whole-word groups of `areCommonConfusions`
(app.js), duplicates included as written in the source. -/
def wordConfusions : List (List String) :=
  [["the", "a"], ["the", "uh"], ["and", "an"], ["to", "too", "two"],
   ["there", "their", "theyre"], ["its", "its"], ["your", "youre"],
   ["were", "where", "were"], ["then", "than"]]

/-- `areCommonConfusions` (app.js): either some OCR glyph substitution,
applied globally in both directions to either word, turns one word into
the other, or both words belong to one mis-hearing group. -/
def areCommonConfusions (word1 word2 : String) : Bool :=
  let normalized1 := toLowerString word1
  let normalized2 := toLowerString word2
  (ocrConfusions.any fun p =>
    jsReplaceAll normalized1 p.1 p.2 == normalized2 ||
    jsReplaceAll normalized1 p.2 p.1 == normalized2 ||
    normalized1 == jsReplaceAll normalized2 p.1 p.2 ||
    normalized1 == jsReplaceAll normalized2 p.2 p.1) ||
  (wordConfusions.any fun group => group.contains normalized1 && group.contains normalized2)

/-- `calculateWordSimilarity` (app.js): 0 for an empty argument, 1.0 for
equality, 0.95 for equal phonetic codes, 0.9 for a known OCR/STT
confusion, the two shared-start heuristics when the shorter word has at
least 3 characters, and otherwise normalized Levenshtein similarity with
a small length bonus, capped at 1.0. -/
def calculateWordSimilarity (word1 word2 : String) : ℚ :=
  if word1 = "" ∨ word2 = "" then 0
  else if word1 = word2 then 1
  else if phoneticSame word1 word2 then 19/20
  else if areCommonConfusions word1 word2 then 9/10
  else if 3 ≤ min word1.data.length word2.data.length ∧
      (word2.data.isPrefixOf word1.data ∨ word1.data.isPrefixOf word2.data) then
    7/10 + 1/4 * (min word1.data.length word2.data.length : ℚ) /
      (max word1.data.length word2.data.length : ℚ)
  else if 3 ≤ min word1.data.length word2.data.length ∧
      word1.data.take (min 4 (min word1.data.length word2.data.length)) =
        word2.data.take (min 4 (min word1.data.length word2.data.length)) then
    3/5 + 3/10 * (min word1.data.length word2.data.length : ℚ) /
      (max word1.data.length word2.data.length : ℚ)
  else
    min 1
      (1 - (levenshteinDistance word1 word2 : ℚ) /
          (max word1.data.length word2.data.length : ℚ) +
        min (1/10) ((max word1.data.length word2.data.length : ℚ) * (1/100)))

/-- The `phoneticEquivalences` table (app.js): base word mapped to its
equivalent spellings/homophones. -/
def phoneticEquivalences : List (String × List String) :=
  [("graham", ["gram", "grahm"]), ("michael", ["mike", "micheal"]),
   ("stephen", ["steven", "stefan"]), ("catherine", ["katherine", "kathryn"]),
   ("anne", ["ann"]), ("sara", ["sarah"]), ("jon", ["john"]),
   ("knight", ["night"]), ("know", ["no"]), ("knew", ["new"]),
   ("write", ["right", "rite"]), ("whole", ["hole"]), ("hour", ["our"]),
   ("their", ["there", "theyre"]), ("your", ["youre"]), ("its", ["its"]),
   ("to", ["too", "two"]), ("by", ["bye", "buy"]), ("for", ["four", "fore"])]

/-- `arePhoneticEquivalents` (app.js): equal after lower-casing, or both
words belong to one group `[base, ...equivalents]` of the table. -/
def arePhoneticEquivalents (word1 word2 : String) : Bool :=
  let w1 := toLowerString word1
  let w2 := toLowerString word2
  w1 == w2 ||
    phoneticEquivalences.any fun entry =>
      (entry.1 == w1 || entry.2.contains w1) && (entry.1 == w2 || entry.2.contains w2)

/-- `wordsAreSimilar` (app.js): equal after `normalizeWord`, or both empty
(`maxLen === 0`), or normalized Levenshtein similarity at least 0.6. -/
def wordsAreSimilar (word1 word2 : String) : Bool :=
  let w1 := normalizeWord word1
  let w2 := normalizeWord word2
  if w1 == w2 then true
  else if max w1.data.length w2.data.length = 0 then true
  else
    decide ((3:ℚ)/5 ≤
      1 - (levenshteinDistance w1 w2 : ℚ) / (max w1.data.length w2.data.length : ℚ))

/-- A speech-recognizer word (the `wordInfo` records built by
`runSpeechToText` in app.js): token text, optional start/end time in
seconds (the source carries them as strings like `"1.500s"` and parses
them with `parseFloat`; the embedding carries the parsed value) and a
confidence. -/
structure SpokenWord where
  word : String
  startTime : Option ℚ
  endTime : Option ℚ
  confidence : ℚ
deriving DecidableEq

instance : Inhabited SpokenWord := ⟨⟨"", none, none, 0⟩⟩

/-- `detectHesitation` (app.js): false at index 0, when either neighbour is
missing or when either timestamp is absent; otherwise true exactly when
the gap between this word's start and the previous word's end exceeds
0.5 seconds. -/
def detectHesitation (spokenWordInfo : List SpokenWord) (index : Nat) : Bool :=
  if index = 0 then false
  else
    match spokenWordInfo.get? index, spokenWordInfo.get? (index - 1) with
    | some curr, some prev =>
      match curr.startTime, prev.endTime with
      | some currStart, some prevEnd => decide (currStart - prevEnd > 1/2)
      | _, _ => false
    | _, _ => false

/-- Hesitation type tags used by the pre-pass of `analyzePronunciation`. -/
inductive HesitationType where
  | filler
  | pause
deriving DecidableEq

/-- One element of `analysis.errors.hesitations` (app.js):
`{ spokenIndex, type, word }`. -/
structure Hesitation where
  spokenIndex : Nat
  type : HesitationType
  word : String
deriving DecidableEq

/-- One element of `analysis.errors.repeatedWords` (app.js):
`{ spokenIndex, word }`. -/
structure RepeatedWord where
  spokenIndex : Nat
  word : String
deriving DecidableEq

/-- The hesitation pre-pass loop of `analyzePronunciation` (app.js):
for each spoken word (skipping null/empty entries), record a `filler`
hesitation for filler words, else a `pause` hesitation when
`detectHesitation` fires. -/
def hesitationsPass (spokenWordInfo : List SpokenWord) : List Hesitation :=
  (List.range spokenWordInfo.length).filterMap fun i =>
    let word := spokenWordInfo.getD i default
    if word.word = "" then none
    else if isFillerWord word.word then some ⟨i, HesitationType.filler, word.word⟩
    else if detectHesitation spokenWordInfo i then some ⟨i, HesitationType.pause, word.word⟩
    else none

/-- The repetition pre-pass of `analyzePronunciation` (app.js): a word with
the same normalized form as its immediate predecessor is recorded as a
repeated word. -/
def repeatedPass (spokenWordInfo : List SpokenWord) : List RepeatedWord :=
  (List.range spokenWordInfo.length).filterMap fun i =>
    let word := spokenWordInfo.getD i default
    if word.word = "" then none
    else
      match i, spokenWordInfo.get? (i - 1) with
      | 0, _ => none
      | _ + 1, none => none
      | _ + 1, some prevWord =>
        if prevWord.word ≠ "" ∧ normalizeWord word.word = normalizeWord prevWord.word then
          some ⟨i, word.word⟩
        else none

/-- The `cleanSpoken` filter of `analyzePronunciation` (app.js): drop
null/empty and filler words, and drop a word whose normalized form equals
that of the last kept word. -/
def cleanSpoken (spokenWordInfo : List SpokenWord) : List SpokenWord :=
  spokenWordInfo.foldl
    (fun acc word =>
      if word.word = "" ∨ isFillerWord word.word then acc
      else
        match acc.getLast? with
        | some prev => if normalizeWord word.word = normalizeWord prev.word then acc
                       else acc ++ [word]
        | none => acc ++ [word])
    []

/-- The match/skip/insert actions stored in the `path` table of
`analyzePronunciation` (app.js). -/
inductive AlignAction where
  | matched
  | skipped
  | inserted
deriving DecidableEq

/-- The per-cell score of `analyzePronunciation` (app.js): `1` when the
normalized words are equal or phonetically equivalent, `0.3` when
`wordsAreSimilar` on the raw words, else `-1`. -/
def alignMatchScore (expected spoken : String) : ℚ :=
  if normalizeWord expected = normalizeWord spoken ∨
      arePhoneticEquivalents (normalizeWord expected) (normalizeWord spoken) then 1
  else if wordsAreSimilar expected spoken then 3/10
  else -1

/-- Fuelled form of the `dp`/`path` tables of `analyzePronunciation`
(app.js): cell `(i, j)` holds the best score for the first `i` expected
words against the first `j` clean spoken words together with the action
chosen there (`path[0][0]` is `null`, modelled as `none`).  Base cases
`dp[i][0] = -i`, `dp[0][j] = -0.5 j`; the recurrence takes the maximum of
match/skip/insert with ties broken in that order, exactly as the source's
comparison chain does.  The fuel is always at least `i + j`, so the
fuel-exhausted branch is never taken. -/
def dpAux (expectedWords : List String) (spoken : List SpokenWord) :
    Nat → Nat → Nat → ℚ × Option AlignAction
  | _, 0, 0 => (0, none)
  | _, i + 1, 0 => (-(i + 1 : ℚ), some AlignAction.skipped)
  | _, 0, j + 1 => (-(j + 1 : ℚ) * (1/2), some AlignAction.inserted)
  | 0, _ + 1, _ + 1 => (0, none)
  | f + 1, i + 1, j + 1 =>
    let matchScore := alignMatchScore (expectedWords.getD i "") (spoken.getD j default).word
    let matchOption := (dpAux expectedWords spoken f i j).1 + matchScore
    let skipOption := (dpAux expectedWords spoken f i (j + 1)).1 - 1
    let insertOption := (dpAux expectedWords spoken f (i + 1) j).1 - 1/2
    if matchOption ≥ skipOption ∧ matchOption ≥ insertOption then
      (matchOption, some AlignAction.matched)
    else if skipOption ≥ insertOption then (skipOption, some AlignAction.skipped)
    else (insertOption, some AlignAction.inserted)

/-- The `dp`/`path` cell `(i, j)` of `analyzePronunciation` (app.js). -/
def dpPath (expectedWords : List String) (spoken : List SpokenWord) (i j : Nat) :
    ℚ × Option AlignAction :=
  dpAux expectedWords spoken (i + j) i j

/-- Word status in an alignment entry. -/
inductive WordStatus where
  | correct
  | misread
  | skipped
deriving DecidableEq

/-- One element of `analysis.aligned` (app.js): for match actions
`{ expected, spoken, status, confidence, startTime, endTime, index }`,
for skip actions `{ expected, spoken: null, status: 'skipped', index }`
(absent fields modelled as `none`). -/
structure AlignedEntry where
  expected : String
  spoken : Option String
  status : WordStatus
  confidence : Option ℚ
  startTime : Option ℚ
  endTime : Option ℚ
  index : Nat
deriving DecidableEq

/-- The correctness re-check performed during backtracking
(app.js): normalized equality or phonetic equivalence decides between
`'correct'` and `'misread'`. -/
def isCorrectPick (expected spokenWord : String) : Prop :=
  normalizeWord expected = normalizeWord spokenWord ∨
    arePhoneticEquivalents (normalizeWord expected) (normalizeWord spokenWord)

instance (expected spokenWord : String) : Decidable (isCorrectPick expected spokenWord) := by
  unfold isCorrectPick; infer_instance

/-- The aligned entry produced by a match action at cell `(i+1, j+1)`
(app.js backtracking loop). -/
def mkMatchEntry (expectedWords : List String) (spoken : List SpokenWord) (i j : Nat) :
    AlignedEntry :=
  if isCorrectPick (expectedWords.getD i "") (spoken.getD j default).word then
    ⟨expectedWords.getD i "", some (spoken.getD j default).word, WordStatus.correct,
     some (spoken.getD j default).confidence, (spoken.getD j default).startTime,
     (spoken.getD j default).endTime, i⟩
  else
    ⟨expectedWords.getD i "", some (spoken.getD j default).word, WordStatus.misread,
     some (spoken.getD j default).confidence, (spoken.getD j default).startTime,
     (spoken.getD j default).endTime, i⟩

/-- The aligned entry produced by a skip action at row `i+1` (app.js). -/
def mkSkipEntry (expectedWords : List String) (i : Nat) : AlignedEntry :=
  ⟨expectedWords.getD i "", none, WordStatus.skipped, none, none, none, i⟩

/-- Fuelled form of the backtracking loop of `analyzePronunciation`
(app.js): walk from `(i, j)` towards `(0, 0)` following `path`, prepending
(`unshift`) one entry per match/skip action; the embedding builds the same
list by appending at the recursive return.  The fuel is always at least
`i + j`, so the fuel-exhausted branch is never taken. -/
def backtrackAux (expectedWords : List String) (spoken : List SpokenWord) :
    Nat → Nat → Nat → List AlignedEntry
  | 0, _, _ => []
  | f + 1, i, j =>
    match i, j, (dpPath expectedWords spoken i j).2 with
    | i' + 1, j' + 1, some AlignAction.matched =>
      backtrackAux expectedWords spoken f i' j' ++ [mkMatchEntry expectedWords spoken i' j']
    | i' + 1, _, some AlignAction.skipped =>
      backtrackAux expectedWords spoken f i' j ++ [mkSkipEntry expectedWords i']
    | _, j' + 1, some AlignAction.inserted => backtrackAux expectedWords spoken f i j'
    | _, _, _ => []

/-- The backtracking loop of `analyzePronunciation` (app.js), started at
`(m, n)`. -/
def backtrack (expectedWords : List String) (spoken : List SpokenWord) (i j : Nat) :
    List AlignedEntry :=
  backtrackAux expectedWords spoken (i + j) i j

/-- One element of `analysis.errors.misreadWords` (app.js):
`{ index, expected, spoken }`. -/
structure MisreadWord where
  index : Nat
  expected : String
  spoken : String
deriving DecidableEq

/-- The output record of `analyzePronunciation` (app.js): the `aligned`
list, the `errors` lists and `correctCount`.  `substitutedWords`,
`skippedLines` and `repeatedPhrases` are declared by the source but never
pushed to, so they are always `[]`. -/
structure PronAnalysis where
  aligned : List AlignedEntry
  skippedWords : List Nat
  misreadWords : List MisreadWord
  substitutedWords : List MisreadWord
  hesitations : List Hesitation
  repeatedWords : List RepeatedWord
  correctCount : Nat
deriving DecidableEq

/-- `analyzePronunciation` (app.js).  The backtracking loop `unshift`s
aligned entries (so `aligned` is in ascending expected order) while
`push`ing to the error lists (so `skippedWords`/`misreadWords` are in the
walk order, i.e. descending index order — hence the `reverse`), and
increments `correctCount` once per `'correct'` entry. -/
def analyzePronunciation (expectedWords : List String)
    (spokenWordInfo : List SpokenWord) : PronAnalysis :=
  let cs := cleanSpoken spokenWordInfo
  let aligned := backtrack expectedWords cs expectedWords.length cs.length
  ⟨aligned,
   ((aligned.filter fun e => decide (e.status = WordStatus.skipped)).map
     fun e => e.index).reverse,
   ((aligned.filter fun e => decide (e.status = WordStatus.misread)).map
     fun e => ⟨e.index, e.expected, e.spoken.getD ""⟩).reverse,
   [],
   hesitationsPass spokenWordInfo,
   repeatedPass spokenWordInfo,
   (aligned.filter fun e => decide (e.status = WordStatus.correct)).length⟩

/-- A `{ expected, actual, pattern }` record pushed by the pattern
analyzers (app.js). -/
structure PatternRec where
  expected : String
  actual : String
  pattern : String
deriving DecidableEq

/-- A consonant-blend record `{ expected, actual, blend, pattern }`
(app.js, `analyzePhonicsPattern`). -/
structure BlendRec where
  expected : String
  actual : String
  blend : String
  pattern : String
deriving DecidableEq

/-- A digraph record `{ expected, actual, digraph, pattern }`
(app.js, `analyzePhonicsPattern`). -/
structure DigraphRec where
  expected : String
  actual : String
  digraph : String
  pattern : String
deriving DecidableEq

/-- `patterns.phonicsPatterns` (app.js, `analyzeErrorPatterns`);
`vowelPatterns`, `silentLetters` and `rControlledVowels` are declared but
never pushed to. -/
structure PhonicsPatterns where
  initialSoundErrors : List PatternRec
  finalSoundErrors : List PatternRec
  vowelPatterns : List PatternRec
  consonantBlends : List BlendRec
  silentLetters : List PatternRec
  rControlledVowels : List PatternRec
  digraphs : List DigraphRec
deriving DecidableEq

/-- `patterns.readingStrategies` (app.js); `contextGuessing` and
`partialDecoding` are declared but never pushed to. -/
structure ReadingStrategies where
  firstLetterGuessing : List PatternRec
  contextGuessing : List PatternRec
  partialDecoding : List PatternRec
deriving DecidableEq

/-- `patterns.speechPatterns` (app.js); `sSoundIssues` and `lSoundIssues`
are declared but never pushed to. -/
structure SpeechPatterns where
  rSoundIssues : List PatternRec
  sSoundIssues : List PatternRec
  lSoundIssues : List PatternRec
  thSoundIssues : List PatternRec
deriving DecidableEq

/-- `patterns.summary` (app.js, `generatePatternSummary`). -/
structure PatternSummary where
  primaryIssues : List String
  recommendations : List String
  severity : String
deriving DecidableEq

/-- The full `patterns` record of `analyzeErrorPatterns` (app.js);
`morphologicalErrors` is declared but never pushed to. -/
structure ErrorPatterns where
  phonicsPatterns : PhonicsPatterns
  readingStrategies : ReadingStrategies
  speechPatterns : SpeechPatterns
  morphologicalErrors : List PatternRec
  visualSimilarityErrors : List PatternRec
  summary : PatternSummary
deriving DecidableEq

/-- The fixed consonant-blend list of `analyzePhonicsPattern` (app.js). -/
def blendsList : List String :=
  ["bl", "cl", "fl", "gl", "pl", "br", "cr", "dr", "fr", "gr", "tr", "sc", "sk", "sp", "st"]

/-- The fixed digraph list of `analyzePhonicsPattern` (app.js). -/
def digraphsList : List String := ["ch", "sh", "th", "ph", "wh"]

/-- The guarded, lower-cased `(expected, actual)` pairs the analyzers run
on: `analyzeErrorPatterns` (app.js) skips records with a missing/empty
`expected` or `spoken` field and lower-cases both. -/
def misreadPairs (analysis : PronAnalysis) : List (String × String) :=
  analysis.misreadWords.filterMap fun error =>
    if error.expected = "" ∨ error.spoken = "" then none
    else some (toLowerString error.expected, toLowerString error.spoken)

/-- Boolean substring occurrence test on character lists. -/
def listIncludes (sub : List Char) : List Char → Bool
  | [] => sub.isEmpty
  | c :: rest => sub.isPrefixOf (c :: rest) || listIncludes sub rest

/-- JS `s.includes(sub)` for a literal substring. -/
def strIncludes (s sub : String) : Bool := listIncludes sub.data s.data

/-- `analyzeErrorPatterns` (app.js) together with its helpers
`analyzePhonicsPattern`, `analyzeReadingStrategy`, `analyzeSpeechPattern`,
`analyzeVisualSimilarity` and `generatePatternSummary`.  Each output list
collects, in misread order, the records the corresponding `push` calls
produce (each analyzer pushes to its own lists, so per-list order is
preserved). -/
def analyzeErrorPatterns (analysis : PronAnalysis) : ErrorPatterns :=
  let pairs := misreadPairs analysis
  let initialSoundErrors := pairs.filterMap fun p =>
    if p.1.data.headD ' ' ≠ p.2.data.headD ' ' then
      some ⟨p.1, p.2, "Initial consonant substitution"⟩
    else none
  let finalSoundErrors := pairs.filterMap fun p =>
    if 0 < p.1.data.length ∧ 0 < p.2.data.length ∧
        p.1.data.getLastD ' ' ≠ p.2.data.getLastD ' ' then
      some ⟨p.1, p.2, "Final sound error"⟩
    else none
  let consonantBlends := pairs.flatMap fun p =>
    blendsList.filterMap fun blend =>
      if strIncludes p.1 blend ∧ ¬ strIncludes p.2 blend then
        some (⟨p.1, p.2, blend, "Consonant blend reduction"⟩ : BlendRec)
      else none
  let digraphs := pairs.flatMap fun p =>
    digraphsList.filterMap fun digraph =>
      if strIncludes p.1 digraph ∧ ¬ strIncludes p.2 digraph then
        some (⟨p.1, p.2, digraph, "Digraph error"⟩ : DigraphRec)
      else none
  let firstLetterGuessing := pairs.filterMap fun p =>
    if p.1.data.headD ' ' = p.2.data.headD ' ' ∧ 2 < p.1.data.length ∧ 2 < p.2.data.length ∧
        1 - (levenshteinDistance p.1 p.2 : ℚ) / (max p.1.data.length p.2.data.length : ℚ)
          < 1/2 then
      some (⟨p.1, p.2, "First letter guessing"⟩ : PatternRec)
    else none
  let rSoundIssues := pairs.filterMap fun p =>
    if p.1.data.contains 'r' ∧ p.2.data.contains 'w' then
      some (⟨p.1, p.2, "R → W substitution"⟩ : PatternRec)
    else none
  let thSoundIssues := pairs.filterMap fun p =>
    if strIncludes p.1 "th" ∧
        (p.2.data.contains 'd' ∨ p.2.data.contains 't' ∨ p.2.data.contains 'f') then
      some (⟨p.1, p.2, "TH substitution"⟩ : PatternRec)
    else none
  let visualSimilarityErrors := pairs.filterMap fun p =>
    if [('b', 'd'), ('p', 'q'), ('m', 'n'), ('u', 'n')].any (fun pr =>
        (p.1.data.contains pr.1 && p.2.data.contains pr.2) ||
        (p.1.data.contains pr.2 && p.2.data.contains pr.1)) then
      some (⟨p.1, p.2, "Visual similarity confusion"⟩ : PatternRec)
    else none
  let totalErrors := analysis.skippedWords.length + analysis.misreadWords.length +
    analysis.substitutedWords.length
  let issues1 : List (String × String) :=
    (if 3 ≤ initialSoundErrors.length then
      [("Consistent initial sound errors", "Focus on initial consonant sounds")] else []) ++
    (if 2 ≤ consonantBlends.length then
      [("Difficulty with consonant blends", "Practice blending sounds together")] else []) ++
    (if 2 ≤ firstLetterGuessing.length then
      [("Guessing based on first letter", "Encourage sounding out entire word")] else []) ++
    (if 3 ≤ rSoundIssues.length ∨ 2 ≤ thSoundIssues.length then
      [("Speech sound difficulties detected", "Consider speech-language evaluation")] else [])
  let severity := if totalErrors = 0 then "excellent"
    else if totalErrors < 5 then "mild"
    else if totalErrors < 10 then "moderate"
    else "significant"
  ⟨⟨initialSoundErrors, finalSoundErrors, [], consonantBlends, [], [], digraphs⟩,
   ⟨firstLetterGuessing, [], []⟩,
   ⟨rSoundIssues, [], [], thSoundIssues⟩,
   [],
   visualSimilarityErrors,
   ⟨issues1.map Prod.fst, issues1.map Prod.snd, severity⟩⟩

/-- JS `Math.round`: round half towards positive infinity. -/
def jsRound (q : ℚ) : Int := ⌊q + 1/2⌋

/-- The output record of `calculateProsodyMetrics` (app.js). -/
structure ProsodyMetrics where
  totalWords : Nat
  wordsRead : Nat
  accuracy : ℚ
  wpm : Int
  prosodyScore : ℚ
  prosodyGrade : String
  readingTime : ℚ
deriving DecidableEq

/-- `calculateProsodyMetrics` (app.js): reading time from the first/last
spoken timestamps with the recording duration as fallback, words-per-minute
and accuracy guarded against zero denominators, and the banded composite
prosody score `0.4·accuracy + 0.3·rate + 0.3·fluency` rounded to one
decimal with its letter grade. -/
def calculateProsodyMetrics (expectedWords : List String)
    (spokenWordInfo : List SpokenWord) (analysis : PronAnalysis)
    (recordingDurationSeconds : Option ℚ) : ProsodyMetrics :=
  let totalWords := expectedWords.length
  let wordsRead := analysis.correctCount + analysis.misreadWords.length
  let readingTime :=
    if spokenWordInfo.length > 0 then
      match (spokenWordInfo.headD default).startTime,
          (spokenWordInfo.getLastD default).endTime with
      | some first, some last => last - first
      | _, _ => recordingDurationSeconds.getD 0
    else recordingDurationSeconds.getD 0
  let wpm : Int := if 0 < readingTime then jsRound ((wordsRead : ℚ) / (readingTime / 60)) else 0
  let accuracy : ℚ :=
    if 0 < totalWords then (analysis.correctCount : ℚ) / (totalWords : ℚ) * 100 else 0
  let accuracyPoints : ℚ := if 98 ≤ accuracy then 4 else if 95 ≤ accuracy then 7/2
    else if 90 ≤ accuracy then 3 else if 85 ≤ accuracy then 5/2
    else if 75 ≤ accuracy then 2 else 3/2
  let ratePoints : ℚ := if 100 ≤ wpm ∧ wpm ≤ 180 then 4
    else if 80 ≤ wpm ∧ wpm ≤ 200 then 7/2
    else if 60 ≤ wpm ∧ wpm ≤ 220 then 3 else 2
  let totalErrors := analysis.skippedWords.length + analysis.misreadWords.length +
    analysis.hesitations.length
  let errorRate : ℚ := if 0 < totalWords then (totalErrors : ℚ) / (totalWords : ℚ) else 0
  let fluencyPoints : ℚ := if errorRate ≤ 1/50 then 4 else if errorRate ≤ 1/20 then 7/2
    else if errorRate ≤ 1/10 then 3 else if errorRate ≤ 1/5 then 5/2 else 2
  let prosodyScore : ℚ :=
    (jsRound ((accuracyPoints * (2/5) + ratePoints * (3/10) + fluencyPoints * (3/10)) * 10) : ℚ)
      / 10
  let prosodyGrade := if 19/5 ≤ prosodyScore then "Excellent"
    else if 3 ≤ prosodyScore then "Proficient"
    else if 2 ≤ prosodyScore then "Developing" else "Needs Support"
  ⟨totalWords, wordsRead, accuracy, wpm, prosodyScore, prosodyGrade, readingTime⟩

/-- JS `s.replace(/suf$/, rep)` for a literal suffix: rewrite the suffix
when present, otherwise leave the string unchanged. -/
def replaceSuffix (s suf rep : String) : String :=
  if suf.data.isSuffixOf s.data then
    String.mk (s.data.take (s.data.length - suf.data.length) ++ rep.data)
  else s

/-- The `numberWords` object of `normalizeWordForMatching` (app.js). -/
def numberWords : List (String × String) :=
  [("0", "zero"), ("1", "one"), ("2", "two"), ("3", "three"), ("4", "four"),
   ("5", "five"), ("6", "six"), ("7", "seven"), ("8", "eight"), ("9", "nine"),
   ("10", "ten"), ("11", "eleven"), ("12", "twelve")]

/-- `normalizeWordForMatching` (app.js): lower-case, strip every character
outside `\w` (`[A-Za-z0-9_]`), apply the six trailing-contraction
rewrites in source order (their patterns contain an apostrophe, written
here via `apos`), then map a pure `0`–`12` digit token to its number
word. -/
def normalizeWordForMatching (word : String) : String :=
  let stripped := String.mk ((word.data.map Char.toLower).filter fun c =>
    c.isAlphanum || c == '_')
  let expanded := replaceSuffix (replaceSuffix (replaceSuffix (replaceSuffix (replaceSuffix
    (replaceSuffix stripped (String.mk ['n', apos, 't']) "not")
    (String.mk [apos, 'r', 'e']) "are")
    (String.mk [apos, 'v', 'e']) "have")
    (String.mk [apos, 'l', 'l']) "will")
    (String.mk [apos, 'd']) "would")
    (String.mk [apos, 's']) ""
  match numberWords.lookup expanded with
  | some nw => nw
  | none => expanded

/-- The spoken-side cleanup of `findSpokenRangeInOCR` (app.js): drop
null/empty and filler tokens, normalize, drop tokens that normalize to
the empty string. -/
def cleanSpokenForRange (spokenWords : List SpokenWord) : List String :=
  ((spokenWords.filter fun w => w.word != "" && ! isFillerWord w.word).map
    fun w => normalizeWordForMatching w.word).filter fun w => 0 < w.data.length

/-- One cell of `buildSimilarityMatrix` (app.js): the similarity of spoken
word `s` and OCR word `o` (the source precomputes the full `m×n` matrix;
the embedding recomputes entries on demand). -/
def similarityMatrixAt (spoken ocr : List String) (s o : Nat) : ℚ :=
  calculateWordSimilarity (spoken.getD s "") (ocr.getD o "")

/-- A `dp[...]` state of `findBestAlignment` (app.js):
`{ score, matchCount, lastOCR, firstOCR }`. -/
structure DPState where
  score : ℚ
  matchCount : Nat
  lastOCR : Int
  firstOCR : Int
deriving DecidableEq

/-- The initial `dp` fill of `findBestAlignment` (app.js):
`{ score: 0, matchCount: 0, lastOCR: startOCR - 1, firstOCR: -1 }`. -/
def initDPState (startOCR : Nat) : DPState := ⟨0, 0, (startOCR : Int) - 1, -1⟩

/-- The body of the inner `o` loop of `findBestAlignment` (app.js): a
similarity at or above the 0.55 match threshold offers
`prev.score + sim - 0.3·(skipped OCR words)`, adopted when it strictly
beats the current `dp[s+1]` candidate. -/
def dpMatchStep (simRow : Nat → ℚ) (prev cur : DPState) (o : Nat) : DPState :=
  let sim := simRow o
  if 11/20 ≤ sim then
    let skippedOCR : Int := (o : Int) - prev.lastOCR - 1
    let newScore := prev.score + sim - (skippedOCR : ℚ) * (3/10)
    if cur.score < newScore then
      ⟨newScore, prev.matchCount + 1, (o : Int),
       if prev.firstOCR = -1 then (o : Int) else prev.firstOCR⟩
    else cur
  else cur

/-- One `dp[s] → dp[s+1]` step of `findBestAlignment` (app.js): scan every
OCR index `o > prevState.lastOCR` with `dpMatchStep` starting from the
initial fill (`dp[s+1]`'s untouched value); afterwards the gap option
`prev.score - 0.4`, keeping the previous state's other fields, is taken
when it strictly beats the candidate. -/
def dpStep (simRow : Nat → ℚ) (n : Nat) (prev : DPState) (startOCR : Nat) : DPState :=
  let afterMatches :=
    ((List.range n).filter fun (o : Nat) => decide (prev.lastOCR < (o : Int))).foldl
      (dpMatchStep simRow prev) (initDPState startOCR)
  if afterMatches.score < prev.score - 2/5 then
    ⟨prev.score - 2/5, prev.matchCount, prev.lastOCR, prev.firstOCR⟩
  else afterMatches

/-- The `dp` array after processing the first `s` spoken words for a given
start offset (app.js, `findBestAlignment` inner loops). -/
def dpRun (spoken ocr : List String) (startOCR : Nat) : Nat → DPState
  | 0 => initDPState startOCR
  | s + 1 =>
    dpStep (fun o => similarityMatrixAt spoken ocr s o) ocr.length
      (dpRun spoken ocr startOCR s) startOCR

/-- The result record of `findBestAlignment` (app.js). -/
structure AlignBest where
  firstOCRIndex : Int
  lastOCRIndex : Int
  matchedCount : Nat
  score : ℚ
deriving DecidableEq

/-- The per-start-offset update of the best range (app.js,
`findBestAlignment` outer loop body): a final state qualifies when
`matchCount ≥ 2` and its score strictly beats the best so far. -/
def bestStep (spoken ocr : List String) (best : AlignBest) (startOCR : Nat) : AlignBest :=
  let finalState := dpRun spoken ocr startOCR spoken.length
  if 2 ≤ finalState.matchCount ∧ best.score < finalState.score then
    ⟨finalState.firstOCR, finalState.lastOCR, finalState.matchCount, finalState.score⟩
  else best

/-- `findBestAlignment` (app.js): fold `bestStep` over every OCR start
offset, starting from the no-match record (`-1` indices, score 0); the
best qualifying state's range is returned, or the `-1` indices when none
qualifies. -/
def findBestAlignment (spoken ocr : List String) : AlignBest :=
  (List.range ocr.length).foldl (bestStep spoken ocr) ⟨-1, -1, 0, 0⟩

/-- The result record of `findSpokenRangeInOCR`/`findRangeByAnchors`
(app.js): `{ firstIndex, lastIndex, matchedCount }`, with `-1`/`-1` as the
"no match" sentinel. -/
structure RangeMatch where
  firstIndex : Int
  lastIndex : Int
  matchedCount : Nat
deriving DecidableEq

/-- An anchor `{ spokenIdx, ocrIdx, similarity }` (app.js,
`findRangeByAnchors`). -/
structure Anchor where
  spokenIdx : Nat
  ocrIdx : Nat
  similarity : ℚ
deriving DecidableEq

/-- `ocrWordCounts` (app.js, `findRangeByAnchors`): corpus-wide occurrence
count of a normalized OCR word. -/
def ocrWordCount (ocr : List String) (w : String) : Nat := ocr.countP fun x => x == w

/-- The anchor collection loops of `findRangeByAnchors` (app.js): spoken
words of length at least 4 paired with OCR words occurring at most twice,
kept when the similarity is at least 0.6. -/
def anchorCandidates (spoken ocr : List String) : List Anchor :=
  (List.range spoken.length).flatMap fun s =>
    let spokenWord := spoken.getD s ""
    if spokenWord.data.length < 4 then []
    else
      (List.range ocr.length).filterMap fun o =>
        let ocrWord := ocr.getD o ""
        if 2 < ocrWordCount ocr ocrWord then none
        else
          let sim := calculateWordSimilarity spokenWord ocrWord
          if 3/5 ≤ sim then some ⟨s, o, sim⟩ else none

/-- Stable insertion of an anchor into a list sorted by `spokenIdx`,
placing it after all entries with a smaller-or-equal key. -/
def insertAnchor : List Anchor → Anchor → List Anchor
  | [], a => [a]
  | b :: rest, a =>
    if b.spokenIdx ≤ a.spokenIdx then b :: insertAnchor rest a else a :: b :: rest

/-- JS `anchors.sort((a, b) => a.spokenIdx - b.spokenIdx)`: a stable
ascending sort by `spokenIdx`, modelled as insertion sort. -/
def sortAnchors (anchors : List Anchor) : List Anchor := anchors.foldl insertAnchor []

/-- The mutable run-tracking variables of the anchor loop
(app.js, `findRangeByAnchors`). -/
structure AnchorRun where
  bestStart : Nat
  bestEnd : Nat
  currentStart : Nat
  currentEnd : Nat
  matchCount : Nat
  bestMatchCount : Nat
deriving DecidableEq

/-- One iteration of the anchor loop (app.js, `findRangeByAnchors`): an
anchor beyond the current run extends it (updating the best run when the
count now exceeds the best); an anchor before the current run restarts
it; anything inside the run is ignored. -/
def anchorStep (st : AnchorRun) (a : Anchor) : AnchorRun :=
  if st.currentEnd < a.ocrIdx then
    let mc := st.matchCount + 1
    if st.bestMatchCount < mc then
      ⟨st.currentStart, a.ocrIdx, st.currentStart, a.ocrIdx, mc, mc⟩
    else ⟨st.bestStart, st.bestEnd, st.currentStart, a.ocrIdx, mc, st.bestMatchCount⟩
  else if a.ocrIdx < st.currentStart then
    ⟨st.bestStart, st.bestEnd, a.ocrIdx, a.ocrIdx, 1, st.bestMatchCount⟩
  else st

/-- `findRangeByAnchors` (app.js): collect anchors, return the sentinel
when there are none, otherwise sort by spoken index, seed the run with
the first anchor and fold the loop over the rest. -/
def findRangeByAnchors (spoken ocr : List String) : RangeMatch :=
  match sortAnchors (anchorCandidates spoken ocr) with
  | [] => ⟨-1, -1, 0⟩
  | a0 :: rest =>
    let fin := rest.foldl anchorStep ⟨a0.ocrIdx, a0.ocrIdx, a0.ocrIdx, a0.ocrIdx, 1, 1⟩
    ⟨(fin.bestStart : Int), (fin.bestEnd : Int), fin.bestMatchCount⟩

/-- `findSpokenRangeInOCR` (app.js): clean both lists, return the sentinel
when either is empty, run the banded DP, and fall back to anchor matching
when the DP found no qualifying range. -/
def findSpokenRangeInOCR (spokenWords : List SpokenWord) (ocrWords : List String) :
    RangeMatch :=
  let cleanSpoken := cleanSpokenForRange spokenWords
  let cleanOCR := ocrWords.map normalizeWordForMatching
  if cleanSpoken.length = 0 ∨ cleanOCR.length = 0 then ⟨-1, -1, 0⟩
  else
    let alignment := findBestAlignment cleanSpoken cleanOCR
    if alignment.firstOCRIndex = -1 ∨ alignment.lastOCRIndex = -1 then
      findRangeByAnchors cleanSpoken cleanOCR
    else ⟨alignment.firstOCRIndex, alignment.lastOCRIndex, alignment.matchedCount⟩

/-! ## Claim C9: symmetry of the similarity scorer -/

/-- Boolean equality on strings is symmetric. -/
theorem beq_comm_str (a b : String) : (a == b) = (b == a) := by
  by_cases h : a = b
  · subst h; rfl
  · rw [beq_eq_false_iff_ne.mpr h, beq_eq_false_iff_ne.mpr (Ne.symm h)]

/-- The fuelled Levenshtein recurrence is symmetric (given enough fuel). -/
theorem levAux_comm :
    ∀ (f : Nat) (xs ys : List Char), xs.length + ys.length ≤ f →
      levAux f xs ys = levAux f ys xs := by
  intro f
  induction f with
  | zero =>
    intro xs ys h
    have hx : xs = [] := by cases xs <;> simp_all
    have hy : ys = [] := by cases ys <;> simp_all
    subst hx; subst hy; rfl
  | succ f ih =>
    intro xs ys h
    cases xs with
    | nil => cases ys with
      | nil => rfl
      | cons y ys => rfl
    | cons x xs =>
      cases ys with
      | nil => rfl
      | cons y ys =>
        simp only [levAux]
        by_cases hxy : x = y
        · rw [if_pos hxy, if_pos hxy.symm]
          exact ih xs ys (by simp at h; omega)
        · rw [if_neg hxy, if_neg (fun hc => hxy hc.symm)]
          have h1 : levAux f xs (y :: ys) = levAux f (y :: ys) xs :=
            ih xs (y :: ys) (by simp at h ⊢; omega)
          have h2 : levAux f (x :: xs) ys = levAux f ys (x :: xs) :=
            ih (x :: xs) ys (by simp at h ⊢; omega)
          have h3 : levAux f xs ys = levAux f ys xs :=
            ih xs ys (by simp at h ⊢; omega)
          rw [h1, h2, h3]
          omega

/-- `levenshteinDistance` is symmetric. -/
theorem levenshteinDistance_comm (str1 str2 : String) :
    levenshteinDistance str1 str2 = levenshteinDistance str2 str1 := by
  unfold levenshteinDistance
  rw [Nat.add_comm str2.data.length str1.data.length]
  exact levAux_comm _ _ _ (le_refl _)

/-- The phonetic-code equality test is symmetric. -/
theorem phoneticSame_comm (word1 word2 : String) :
    phoneticSame word1 word2 = phoneticSame word2 word1 := by
  unfold phoneticSame
  cases hA : getPhoneticCode word1 <;> cases hB : getPhoneticCode word2 <;>
    simp [beq_comm_str]

/-- `List.any` only depends on the pointwise values of its predicate. -/
theorem any_congr_list {α : Type} (l : List α) (f g : α → Bool)
    (h : ∀ x ∈ l, f x = g x) : l.any f = l.any g := by
  induction l with
  | nil => rfl
  | cons a l ih =>
    simp only [List.any_cons, h a (by simp)]
    rw [ih fun x hx => h x (by simp [hx])]

/-- Shuffling a four-fold boolean disjunction. -/
theorem or4_shuffle (a b c d : Bool) : (a || b || c || d) = (c || d || a || b) := by
  cases a <;> cases b <;> cases c <;> cases d <;> rfl

/-- The OCR/STT confusion test is symmetric: the glyph-substitution check
compares the same four string equations either way round, and group
membership is conjunction-symmetric. -/
theorem areCommonConfusions_comm (word1 word2 : String) :
    areCommonConfusions word1 word2 = areCommonConfusions word2 word1 := by
  unfold areCommonConfusions
  simp only []
  congr 1
  · refine any_congr_list _ _ _ fun p _ => ?_
    rw [beq_comm_str (jsReplaceAll (toLowerString word2) p.1 p.2) (toLowerString word1),
      beq_comm_str (jsReplaceAll (toLowerString word2) p.2 p.1) (toLowerString word1),
      beq_comm_str (toLowerString word2) (jsReplaceAll (toLowerString word1) p.1 p.2),
      beq_comm_str (toLowerString word2) (jsReplaceAll (toLowerString word1) p.2 p.1)]
    exact or4_shuffle _ _ _ _
  · refine any_congr_list _ _ _ fun g _ => ?_
    exact Bool.and_comm _ _

/-- C9: `calculateWordSimilarity` is symmetric — through all five scoring
stages (exact equality, phonetic-code equality, confusion-table
membership, shared-start heuristics, Levenshtein fallback). -/
theorem C9_similarity_symmetric (a b : String) :
    calculateWordSimilarity a b = calculateWordSimilarity b a := by
  unfold calculateWordSimilarity
  have hmin : min b.data.length a.data.length = min a.data.length b.data.length :=
    Nat.min_comm _ _
  have hmax : max b.data.length a.data.length = max a.data.length b.data.length :=
    Nat.max_comm _ _
  have hminq : min (b.data.length : ℚ) (a.data.length : ℚ) =
      min (a.data.length : ℚ) (b.data.length : ℚ) := min_comm _ _
  have hmaxq : max (b.data.length : ℚ) (a.data.length : ℚ) =
      max (a.data.length : ℚ) (b.data.length : ℚ) := max_comm _ _
  by_cases h0 : a = "" ∨ b = ""
  · have h0' : b = "" ∨ a = "" := h0.symm
    rw [if_pos h0, if_pos h0']
  have h0' : ¬ (b = "" ∨ a = "") := fun hc => h0 hc.symm
  rw [if_neg h0, if_neg h0']
  by_cases h1 : a = b
  · have h1' : b = a := h1.symm
    rw [if_pos h1, if_pos h1']
  have h1' : ¬ b = a := fun hc => h1 hc.symm
  rw [if_neg h1, if_neg h1']
  by_cases h2 : phoneticSame a b = true
  · have h2' : phoneticSame b a = true := by rw [phoneticSame_comm b a]; exact h2
    rw [if_pos h2, if_pos h2']
  have h2' : ¬ phoneticSame b a = true := by rw [phoneticSame_comm b a]; exact h2
  rw [if_neg h2, if_neg h2']
  by_cases h3 : areCommonConfusions a b = true
  · have h3' : areCommonConfusions b a = true := by
      rw [areCommonConfusions_comm b a]; exact h3
    rw [if_pos h3, if_pos h3']
  have h3' : ¬ areCommonConfusions b a = true := by
    rw [areCommonConfusions_comm b a]; exact h3
  rw [if_neg h3, if_neg h3']
  by_cases h4 : 3 ≤ min a.data.length b.data.length ∧
      (b.data.isPrefixOf a.data = true ∨ a.data.isPrefixOf b.data = true)
  · have h4' : 3 ≤ min b.data.length a.data.length ∧
        (a.data.isPrefixOf b.data = true ∨ b.data.isPrefixOf a.data = true) := by
      rw [hmin]; exact ⟨h4.1, h4.2.symm⟩
    rw [if_pos h4, if_pos h4', hminq, hmaxq]
  have h4' : ¬ (3 ≤ min b.data.length a.data.length ∧
      (a.data.isPrefixOf b.data = true ∨ b.data.isPrefixOf a.data = true)) := by
    rw [hmin]; exact fun hc => h4 ⟨hc.1, hc.2.symm⟩
  rw [if_neg h4, if_neg h4']
  by_cases h5 : 3 ≤ min a.data.length b.data.length ∧
      a.data.take (min 4 (min a.data.length b.data.length)) =
        b.data.take (min 4 (min a.data.length b.data.length))
  · have h5' : 3 ≤ min b.data.length a.data.length ∧
        b.data.take (min 4 (min b.data.length a.data.length)) =
          a.data.take (min 4 (min b.data.length a.data.length)) := by
      rw [hmin]; exact ⟨h5.1, h5.2.symm⟩
    rw [if_pos h5, if_pos h5', hminq, hmaxq]
  have h5' : ¬ (3 ≤ min b.data.length a.data.length ∧
      b.data.take (min 4 (min b.data.length a.data.length)) =
        a.data.take (min 4 (min b.data.length a.data.length))) := by
    rw [hmin]; exact fun hc => h5 ⟨hc.1, hc.2.symm⟩
  rw [if_neg h5, if_neg h5', hmaxq, levenshteinDistance_comm b a]

/-! ## Claim C1: the aligner is total and ordered -/

/-- The `path` cell right of the left column is always a skip.  -/
theorem dpPath_row_base (E : List String) (S : List SpokenWord) (i : Nat) :
    (dpPath E S (i + 1) 0).2 = some AlignAction.skipped := rfl

/-- The `path` cell above the bottom row is always an insert. -/
theorem dpPath_col_base (E : List String) (S : List SpokenWord) (j : Nat) :
    (dpPath E S 0 (j + 1)).2 = some AlignAction.inserted := rfl

/-- Every interior `path` cell holds one of the three actions. -/
theorem dpPath_interior (E : List String) (S : List SpokenWord) (i j : Nat) :
    (dpPath E S (i + 1) (j + 1)).2 = some AlignAction.matched ∨
    (dpPath E S (i + 1) (j + 1)).2 = some AlignAction.skipped ∨
    (dpPath E S (i + 1) (j + 1)).2 = some AlignAction.inserted := by
  have key : dpPath E S (i + 1) (j + 1) =
      dpAux E S ((i + 1) + (j + 1)) (i + 1) (j + 1) := rfl
  rw [key]
  simp only [dpAux]
  split_ifs <;> simp

/-- A matched entry carries its expected index. -/
theorem mkMatchEntry_index (E : List String) (S : List SpokenWord) (i j : Nat) :
    (mkMatchEntry E S i j).index = i := by
  unfold mkMatchEntry
  split <;> rfl

/-- A skipped entry carries its expected index. -/
theorem mkSkipEntry_index (E : List String) (i : Nat) :
    (mkSkipEntry E i).index = i := rfl

/-- Backtracking from `(i, j)` yields entries indexed `0, …, i-1` in
order, whenever the fuel covers `i + j`. -/
theorem backtrackAux_map_index (E : List String) (S : List SpokenWord) :
    ∀ f i j, i + j ≤ f →
      (backtrackAux E S f i j).map (fun e => e.index) = List.range i := by
  intro f
  induction f with
  | zero =>
    intro i j h
    have hi : i = 0 := by omega
    subst hi
    simp [backtrackAux]
  | succ f ih =>
    intro i j h
    cases i with
    | zero =>
      cases j with
      | zero => simp [backtrackAux, dpPath, dpAux]
      | succ j =>
        have hp := dpPath_col_base E S j
        simp only [backtrackAux, hp]
        exact ih 0 j (by omega)
    | succ i =>
      cases j with
      | zero =>
        have hp := dpPath_row_base E S i
        simp only [backtrackAux, hp]
        rw [List.map_append, ih i 0 (by omega), List.range_succ]
        simp [mkSkipEntry_index]
      | succ j =>
        rcases dpPath_interior E S i j with hp | hp | hp
        · simp only [backtrackAux, hp]
          rw [List.map_append, ih i j (by omega), List.range_succ]
          simp [mkMatchEntry_index]
        · simp only [backtrackAux, hp]
          rw [List.map_append, ih i (j + 1) (by omega), List.range_succ]
          simp [mkSkipEntry_index]
        · simp only [backtrackAux, hp]
          exact ih (i + 1) j (by omega)

/-- C1: for every expected-word list and spoken-word list, the alignment
of `analyzePronunciation` has exactly one entry per expected word, in
original order, with `aligned[i].index == i` — stated as: the indices of
`aligned` are exactly `0, …, len-1` in order. -/
theorem C1_alignment_total_ordered (expectedWords : List String)
    (spokenWordInfo : List SpokenWord) :
    (analyzePronunciation expectedWords spokenWordInfo).aligned.length =
      expectedWords.length ∧
    ((analyzePronunciation expectedWords spokenWordInfo).aligned.map fun e => e.index) =
      List.range expectedWords.length := by
  have hmap : ((analyzePronunciation expectedWords spokenWordInfo).aligned.map
      fun e => e.index) = List.range expectedWords.length :=
    backtrackAux_map_index expectedWords (cleanSpoken spokenWordInfo)
      (expectedWords.length + (cleanSpoken spokenWordInfo).length)
      expectedWords.length (cleanSpoken spokenWordInfo).length (le_refl _)
  refine ⟨?_, hmap⟩
  have hlen := congrArg List.length hmap
  simpa using hlen

/-! ## Claim C8: empty expected words -/

/-- Backtracking along the top row produces no entries. -/
theorem backtrackAux_zero_row (E : List String) (S : List SpokenWord) :
    ∀ f j, backtrackAux E S f 0 j = [] := by
  intro f
  induction f with
  | zero => intro j; rfl
  | succ f ih =>
    intro j
    cases j with
    | zero => rfl
    | succ j => exact ih j

/-- C8: with empty `expectedWords`, `analyzePronunciation` returns an
empty alignment and `correctCount == 0`, and `calculateProsodyMetrics`
on that result reports `accuracy == 0` — every component yields its
well-defined zero value (all embedded functions are total, so no
division-by-zero failure is possible). -/
theorem C8_empty_expected (spokenWordInfo : List SpokenWord)
    (recordingDurationSeconds : Option ℚ) :
    (analyzePronunciation [] spokenWordInfo).aligned = [] ∧
    (analyzePronunciation [] spokenWordInfo).correctCount = 0 ∧
    (calculateProsodyMetrics [] spokenWordInfo
      (analyzePronunciation [] spokenWordInfo) recordingDurationSeconds).accuracy = 0 := by
  have hb : backtrack [] (cleanSpoken spokenWordInfo) 0
      (cleanSpoken spokenWordInfo).length = [] :=
    backtrackAux_zero_row [] (cleanSpoken spokenWordInfo) _ _
  refine ⟨?_, ?_, ?_⟩
  · show backtrack [] (cleanSpoken spokenWordInfo) ([] : List String).length
      (cleanSpoken spokenWordInfo).length = []
    exact hb
  · show ((backtrack [] (cleanSpoken spokenWordInfo) ([] : List String).length
      (cleanSpoken spokenWordInfo).length).filter fun e =>
        decide (e.status = WordStatus.correct)).length = 0
    rw [show ([] : List String).length = 0 from rfl, hb]
    rfl
  · simp [calculateProsodyMetrics]

/-! ## Claim C3: the pause-hesitation threshold -/

/-- `List.getD` evaluated where `get?` is known. -/
theorem getD_of_getQ {α : Type} (l : List α) (i : Nat) (a d : α)
    (h : l.get? i = some a) : l.getD i d = a := by
  simp [List.getD_eq_getElem?_getD, ← List.get?_eq_getElem?, h]

/-- `detectHesitation` under the hypotheses of the pre-pass: both
neighbours present with timestamps, positive index — it is exactly the
0.5-second gap test. -/
theorem detectHesitation_spec (S : List SpokenWord) (i : Nat) (w prev : SpokenWord)
    (cs pe : ℚ) (hi : 0 < i) (hw : S.get? i = some w) (hp : S.get? (i - 1) = some prev)
    (hcs : w.startTime = some cs) (hpe : prev.endTime = some pe) :
    detectHesitation S i = decide (cs - pe > 1/2) := by
  unfold detectHesitation
  rw [if_neg (by omega), hw, hp]
  simp only [hcs, hpe]

/-- Membership of a `pause` record in the hesitation pre-pass output is
exactly the `detectHesitation` test at its index (for a non-empty,
non-filler word actually at that index). -/
theorem pause_mem_hesitationsPass (S : List SpokenWord) (i : Nat) (w : SpokenWord)
    (hw : S.get? i = some w) (hne : w.word ≠ "") (hf : ¬ isFillerWord w.word) :
    ((⟨i, HesitationType.pause, w.word⟩ : Hesitation) ∈ hesitationsPass S ↔
      detectHesitation S i = true) := by
  have hlen : i < S.length := by
    by_contra hge
    rw [List.get?_eq_none.mpr (by omega)] at hw
    exact Option.noConfusion hw
  have hgd : S.getD i default = w := getD_of_getQ S i w default hw
  constructor
  · intro hmem
    rw [hesitationsPass, List.mem_filterMap] at hmem
    obtain ⟨k, _, hk⟩ := hmem
    simp only at hk
    split_ifs at hk with h1 h2 h3 <;> simp at hk
    rw [← hk.1]
    exact h3
  · intro hdet
    rw [hesitationsPass, List.mem_filterMap]
    refine ⟨i, List.mem_range.mpr hlen, ?_⟩
    simp only [hgd]
    rw [if_neg hne, if_neg hf, if_pos hdet]

/-- C3, counterexample: with spoken words `cat` (0.0–0.4 s) and `sat`
(1.2–1.6 s) the gap is 0.8 s, which does *not* exceed the claimed 1.0 s,
yet the pre-pass of `analyzePronunciation` records a `pause` hesitation —
the source threshold in `detectHesitation` is 0.5 s. -/
theorem C3_pause_counterexample :
    (⟨1, HesitationType.pause, "sat"⟩ : Hesitation) ∈
      (analyzePronunciation []
        [⟨"cat", some 0, some (2/5), 9/10⟩,
         ⟨"sat", some (6/5), some (8/5), 9/10⟩]).hesitations ∧
    ¬ ((6/5 : ℚ) - 2/5 > 1) := by decide

/-- C3 (amended): for a spoken word at a positive index with a start time,
whose predecessor has an end time, that is non-empty and not a filler
word, a `pause` hesitation is recorded exactly when the gap between its
start and the previous word's end exceeds **0.5** seconds (the claim said
1.0 s). -/
theorem C3_pause_threshold (E : List String) (S : List SpokenWord) (i : Nat)
    (w prev : SpokenWord) (cs pe : ℚ) (hi : 0 < i) (hw : S.get? i = some w)
    (hne : w.word ≠ "") (hf : ¬ isFillerWord w.word) (hp : S.get? (i - 1) = some prev)
    (hcs : w.startTime = some cs) (hpe : prev.endTime = some pe) :
    ((⟨i, HesitationType.pause, w.word⟩ : Hesitation) ∈
        (analyzePronunciation E S).hesitations ↔ cs - pe > 1/2) := by
  have hh : (analyzePronunciation E S).hesitations = hesitationsPass S := rfl
  rw [hh, pause_mem_hesitationsPass S i w hw hne hf,
    detectHesitation_spec S i w prev cs pe hi hw hp hcs hpe]
  exact decide_eq_true_iff

/-- C3 witness: the amended theorem applied at the concrete 0.8-second gap
input, where the pause is recorded. -/
theorem C3_pause_threshold_witness :
    (⟨1, HesitationType.pause, "sat"⟩ : Hesitation) ∈
      (analyzePronunciation ["cat", "sat"]
        [⟨"cat", some 0, some (2/5), 9/10⟩,
         ⟨"sat", some (6/5), some (8/5), 9/10⟩]).hesitations :=
  (C3_pause_threshold ["cat", "sat"]
    [⟨"cat", some 0, some (2/5), 9/10⟩, ⟨"sat", some (6/5), some (8/5), 9/10⟩]
    1 ⟨"sat", some (6/5), some (8/5), 9/10⟩ ⟨"cat", some 0, some (2/5), 9/10⟩
    (6/5) (2/5) (by decide) (by decide) (by decide) (by decide) (by decide)
    (by decide) (by decide)).mpr (by norm_num)

/-! ## Claim C4: similarity on equal and empty arguments -/

/-- C4, counterexample: the claim asserts `similarity("", "") == 1.0`, but
`calculateWordSimilarity` returns 0 when either argument is empty — both
empty included (`if (!word1 || !word2) return 0` fires before the equality
check). -/
theorem C4_empty_similarity_counterexample : ¬ calculateWordSimilarity "" "" = 1 := by
  decide

/-- C4 (amended): `similarity(a, a) = 1.0` for every nonempty string `a`,
and similarity with an empty argument is 0 — including when both
arguments are empty. -/
theorem C4_similarity_self_amended (a : String) :
    (a ≠ "" → calculateWordSimilarity a a = 1) ∧
    calculateWordSimilarity a "" = 0 ∧ calculateWordSimilarity "" a = 0 := by
  refine ⟨fun h => ?_, ?_, ?_⟩
  · unfold calculateWordSimilarity
    rw [if_neg (by simp [h]), if_pos rfl]
  · unfold calculateWordSimilarity
    rw [if_pos (Or.inr rfl)]
  · unfold calculateWordSimilarity
    rw [if_pos (Or.inl rfl)]

/-- C4 witness: the amended theorem applied at the concrete word `"cat"`. -/
theorem C4_similarity_self_witness :
    ("cat" : String) ≠ "" ∧ calculateWordSimilarity "cat" "cat" = 1 :=
  ⟨by decide, (C4_similarity_self_amended "cat").1 (by decide)⟩

/-! ## Claim C5: contraction expansion in normalizeWordForMatching -/

/-- C5: `normalizeWordForMatching` strips every non-`\w` character —
apostrophes included — *before* the contraction rewrites run, so the
patterns (all of which contain an apostrophe) can never match:
`normalize("don't")` is `"dont"`, not `"donot"` as the spec states, and
`normalize("we're")` is `"were"`, not `"weare"`. -/
theorem C5_contraction_rules_unreachable :
    normalizeWordForMatching (String.mk ['d', 'o', 'n', apos, 't']) = "dont" ∧
    normalizeWordForMatching (String.mk ['w', 'e', apos, 'r', 'e']) = "were" ∧
    ¬ normalizeWordForMatching (String.mk ['d', 'o', 'n', apos, 't']) = "donot" ∧
    ¬ normalizeWordForMatching (String.mk ['w', 'e', apos, 'r', 'e']) = "weare" := by
  decide

/-! ## Claim C6: digit/word homophones in the aligner -/

/-- C6, counterexample: aligning `["ten", "cats"]` against spoken
`["10", "cats"]` does *not* mark `"ten"` as correct with
`correctCount == 2`: the aligner normalizes with `normalizeWord`, which
performs no digit-to-word mapping, so `"10"` stays `"10"` and the entry
is `misread`. -/
theorem C6_ten_cats_counterexample :
    ¬ (((analyzePronunciation ["ten", "cats"]
          [⟨"10", none, none, 9/10⟩, ⟨"cats", none, none, 9/10⟩]).aligned.map
        fun e => e.status) = [WordStatus.correct, WordStatus.correct] ∧
      (analyzePronunciation ["ten", "cats"]
          [⟨"10", none, none, 9/10⟩, ⟨"cats", none, none, 9/10⟩]).correctCount = 2) := by
  decide

/-- C6 (amended): only the range-locator normalizer
`normalizeWordForMatching` maps `"10"` to `"ten"`; the aligner's
`normalizeWord` leaves `"10"` unchanged, so the alignment marks `"ten"`
as `misread` (and `"cats"` as `correct`) with `correctCount == 1`. -/
theorem C6_ten_cats_amended :
    ((analyzePronunciation ["ten", "cats"]
        [⟨"10", none, none, 9/10⟩, ⟨"cats", none, none, 9/10⟩]).aligned.map
      fun e => e.status) = [WordStatus.misread, WordStatus.correct] ∧
    (analyzePronunciation ["ten", "cats"]
        [⟨"10", none, none, 9/10⟩, ⟨"cats", none, none, 9/10⟩]).correctCount = 1 ∧
    normalizeWordForMatching "10" = "ten" ∧ normalizeWord "10" = "10" := by
  decide

/-! ## Claim C7: rabbit/wabbit scenario -/

/-- C7: aligning expected `["rabbit"]` against spoken
`[{wabbit, 0.0, 0.5, 0.9}]` yields a single `misread` entry,
`correctCount == 0`, and `analyzeErrorPatterns` records the r→w
substitution in `speechPatterns.rSoundIssues`. -/
theorem C7_rabbit_wabbit :
    (analyzePronunciation ["rabbit"] [⟨"wabbit", some 0, some (1/2), 9/10⟩]).aligned =
      [⟨"rabbit", some "wabbit", WordStatus.misread, some (9/10), some 0, some (1/2), 0⟩] ∧
    (analyzePronunciation ["rabbit"] [⟨"wabbit", some 0, some (1/2), 9/10⟩]).correctCount
      = 0 ∧
    (analyzeErrorPatterns (analyzePronunciation ["rabbit"]
        [⟨"wabbit", some 0, some (1/2), 9/10⟩])).speechPatterns.rSoundIssues =
      [⟨"rabbit", "wabbit", "R → W substitution"⟩] := by
  decide

/-! ## Claims C2 and C10: range-locator sentinel and well-formedness -/

/-- Invariant of the banded-DP states: either still the untouched initial
fill (`matchCount 0`, `firstOCR -1`), or at least one match with
`0 ≤ firstOCR ≤ lastOCR < n`. -/
def DPWellFormed (n : Nat) (st : DPState) : Prop :=
  (st.matchCount = 0 ∧ st.firstOCR = -1) ∨
  (1 ≤ st.matchCount ∧ 0 ≤ st.firstOCR ∧ st.firstOCR ≤ st.lastOCR ∧ st.lastOCR < (n : Int))

theorem dpMatchStep_wf (simRow : Nat → ℚ) (n : Nat) (prev cur : DPState) (o : Nat)
    (hprev : DPWellFormed n prev) (hcur : DPWellFormed n cur)
    (ho : o < n) (holast : prev.lastOCR < (o : Int)) :
    DPWellFormed n (dpMatchStep simRow prev cur o) := by
  unfold dpMatchStep
  dsimp only
  split_ifs with hsim hscore hfo
  · refine Or.inr ⟨?_, ?_, ?_, ?_⟩ <;> (try dsimp only) <;> omega
  · rcases hprev with ⟨_, hf⟩ | ⟨_, hf0, hfl, hln⟩
    · exact absurd hf hfo
    · refine Or.inr ⟨?_, ?_, ?_, ?_⟩ <;> (try dsimp only) <;> omega
  · exact hcur
  · exact hcur

theorem dpFold_wf (simRow : Nat → ℚ) (n : Nat) (prev : DPState)
    (hprev : DPWellFormed n prev) :
    ∀ (l : List Nat), (∀ o ∈ l, o < n ∧ prev.lastOCR < (o : Int)) →
      ∀ cur, DPWellFormed n cur →
        DPWellFormed n (l.foldl (dpMatchStep simRow prev) cur) := by
  intro l
  induction l with
  | nil => intro _ cur hcur; exact hcur
  | cons o rest ih =>
    intro hmem cur hcur
    exact ih (fun x hx => hmem x (by simp [hx]))
      (dpMatchStep simRow prev cur o)
      (dpMatchStep_wf simRow n prev cur o hprev hcur
        (hmem o (by simp)).1 (hmem o (by simp)).2)

theorem dpStep_wf (simRow : Nat → ℚ) (n : Nat) (prev : DPState) (startOCR : Nat)
    (hprev : DPWellFormed n prev) :
    DPWellFormed n (dpStep simRow n prev startOCR) := by
  unfold dpStep
  dsimp only
  split_ifs with hgap
  · rcases hprev with ⟨h1, h2⟩ | ⟨h1, h2, h3, h4⟩
    · exact Or.inl ⟨h1, h2⟩
    · exact Or.inr ⟨h1, h2, h3, h4⟩
  · refine dpFold_wf simRow n prev hprev _ (fun o hmo => ?_) _ (Or.inl ⟨rfl, rfl⟩)
    rw [List.mem_filter] at hmo
    exact ⟨List.mem_range.mp hmo.1, of_decide_eq_true hmo.2⟩

theorem dpRun_wf (spoken ocr : List String) (startOCR : Nat) :
    ∀ s, DPWellFormed ocr.length (dpRun spoken ocr startOCR s) := by
  intro s
  induction s with
  | zero => exact Or.inl ⟨rfl, rfl⟩
  | succ s ih => exact dpStep_wf _ _ _ _ ih

/-- Invariant of the best-range fold of `findBestAlignment`: either still
the no-match record, or a well-formed range with at least two matches. -/
def BestWF (n : Nat) (b : AlignBest) : Prop :=
  (b.firstOCRIndex = -1 ∧ b.lastOCRIndex = -1) ∨
  (0 ≤ b.firstOCRIndex ∧ b.firstOCRIndex ≤ b.lastOCRIndex ∧
   b.lastOCRIndex < (n : Int) ∧ 2 ≤ b.matchedCount)

theorem bestStep_wf (spoken ocr : List String) (best : AlignBest) (startOCR : Nat)
    (hbest : BestWF ocr.length best) :
    BestWF ocr.length (bestStep spoken ocr best startOCR) := by
  unfold bestStep
  dsimp only
  split_ifs with hq
  · rcases dpRun_wf spoken ocr startOCR spoken.length with ⟨h1, _⟩ | ⟨h1, h2, h3, h4⟩
    · omega
    · exact Or.inr ⟨h2, h3, h4, hq.1⟩
  · exact hbest

theorem findBestAlignment_wf (spoken ocr : List String) :
    BestWF ocr.length (findBestAlignment spoken ocr) := by
  unfold findBestAlignment
  have : ∀ (l : List Nat) (acc : AlignBest), BestWF ocr.length acc →
      BestWF ocr.length (l.foldl (bestStep spoken ocr) acc) := by
    intro l
    induction l with
    | nil => intro acc h; exact h
    | cons x rest ih => intro acc h; exact ih _ (bestStep_wf spoken ocr acc x h)
  exact this _ _ (Or.inl ⟨rfl, rfl⟩)

theorem anchorCandidates_ocrIdx_lt (spoken ocr : List String) :
    ∀ a ∈ anchorCandidates spoken ocr, a.ocrIdx < ocr.length := by
  intro a ha
  unfold anchorCandidates at ha
  rw [List.mem_flatMap] at ha
  obtain ⟨s, _, ha⟩ := ha
  dsimp only at ha
  split_ifs at ha with hlen
  · simp at ha
  · rw [List.mem_filterMap] at ha
    obtain ⟨o, ho, hfo⟩ := ha
    split_ifs at hfo with h1 h2
    rw [Option.some.injEq] at hfo
    rw [← hfo]
    exact List.mem_range.mp ho

theorem mem_insertAnchor (l : List Anchor) (a x : Anchor)
    (h : x ∈ insertAnchor l a) : x ∈ l ∨ x = a := by
  induction l with
  | nil =>
    simp only [insertAnchor, List.mem_singleton] at h
    exact Or.inr h
  | cons b rest ih =>
    unfold insertAnchor at h
    split_ifs at h with hle
    · rcases List.mem_cons.mp h with h2 | h2
      · exact Or.inl (by simp [h2])
      · rcases ih h2 with h3 | h3
        · exact Or.inl (by simp [h3])
        · exact Or.inr h3
    · rcases List.mem_cons.mp h with h2 | h2
      · exact Or.inr h2
      · exact Or.inl h2

theorem mem_sortAnchors_aux :
    ∀ (l acc : List Anchor) (x : Anchor),
      x ∈ l.foldl insertAnchor acc → x ∈ acc ∨ x ∈ l := by
  intro l
  induction l with
  | nil => intro acc x h; exact Or.inl h
  | cons b rest ih =>
    intro acc x h
    rcases ih (insertAnchor acc b) x h with h2 | h2
    · rcases mem_insertAnchor acc b x h2 with h3 | h3
      · exact Or.inl h3
      · exact Or.inr (by simp [h3])
    · exact Or.inr (by simp [h2])

theorem mem_sortAnchors (l : List Anchor) (x : Anchor) (h : x ∈ sortAnchors l) :
    x ∈ l := by
  rcases mem_sortAnchors_aux l [] x h with h2 | h2
  · simp at h2
  · exact h2

theorem insertAnchor_length (l : List Anchor) (a : Anchor) :
    (insertAnchor l a).length = l.length + 1 := by
  induction l with
  | nil => rfl
  | cons b rest ih =>
    unfold insertAnchor
    split_ifs <;> simp [ih]

theorem sortAnchors_length_aux :
    ∀ (l acc : List Anchor), (l.foldl insertAnchor acc).length = acc.length + l.length := by
  intro l
  induction l with
  | nil => intro acc; simp
  | cons b rest ih =>
    intro acc
    rw [List.foldl_cons, ih (insertAnchor acc b), insertAnchor_length]
    simp
    omega

theorem sortAnchors_eq_nil_iff (l : List Anchor) : sortAnchors l = [] ↔ l = [] := by
  constructor
  · intro h
    have hl := congrArg List.length h
    rw [sortAnchors] at hl
    rw [sortAnchors_length_aux l []] at hl
    simpa using List.length_eq_zero.mp (by simpa using hl)
  · intro h
    subst h
    rfl

/-- Invariant of the anchor-run fold: both tracked ranges are ordered and
inside the OCR index space, and the best count is at least 1. -/
def RunWF (n : Nat) (st : AnchorRun) : Prop :=
  st.bestStart ≤ st.bestEnd ∧ st.bestEnd < n ∧ st.currentStart ≤ st.currentEnd ∧
  st.currentEnd < n ∧ 1 ≤ st.bestMatchCount

theorem anchorStep_wf (n : Nat) (st : AnchorRun) (a : Anchor)
    (h : RunWF n st) (ha : a.ocrIdx < n) : RunWF n (anchorStep st a) := by
  obtain ⟨h1, h2, h3, h4, h5⟩ := h
  unfold anchorStep
  dsimp only
  split_ifs with hc1 hc2 hc3 <;>
    refine ⟨?_, ?_, ?_, ?_, ?_⟩ <;> (try dsimp only) <;> omega

theorem anchorFold_wf (n : Nat) :
    ∀ (l : List Anchor) (st : AnchorRun), (∀ a ∈ l, a.ocrIdx < n) → RunWF n st →
      RunWF n (l.foldl anchorStep st) := by
  intro l
  induction l with
  | nil => intro st _ h; exact h
  | cons a rest ih =>
    intro st hmem h
    exact ih _ (fun x hx => hmem x (by simp [hx]))
      (anchorStep_wf n st a h (hmem a (by simp)))

/-- Every non-sentinel result of `findSpokenRangeInOCR` is a well-formed
range; otherwise it is exactly the sentinel record. -/
theorem findSpokenRangeInOCR_cases (spokenWords : List SpokenWord)
    (ocrWords : List String) :
    findSpokenRangeInOCR spokenWords ocrWords = ⟨-1, -1, 0⟩ ∨
    (0 ≤ (findSpokenRangeInOCR spokenWords ocrWords).firstIndex ∧
     (findSpokenRangeInOCR spokenWords ocrWords).firstIndex ≤
       (findSpokenRangeInOCR spokenWords ocrWords).lastIndex ∧
     (findSpokenRangeInOCR spokenWords ocrWords).lastIndex < (ocrWords.length : Int) ∧
     1 ≤ (findSpokenRangeInOCR spokenWords ocrWords).matchedCount) := by
  have hco : (ocrWords.map normalizeWordForMatching).length = ocrWords.length :=
    List.length_map _ _
  unfold findSpokenRangeInOCR
  dsimp only
  split_ifs with hempty hdp
  · exact Or.inl rfl
  · cases hsa : sortAnchors (anchorCandidates (cleanSpokenForRange spokenWords)
        (ocrWords.map normalizeWordForMatching)) with
    | nil =>
      unfold findRangeByAnchors
      rw [hsa]
      exact Or.inl rfl
    | cons a0 rest =>
      right
      unfold findRangeByAnchors
      rw [hsa]
      dsimp only
      have ha0 : a0.ocrIdx < (ocrWords.map normalizeWordForMatching).length :=
        anchorCandidates_ocrIdx_lt _ _ a0
          (mem_sortAnchors _ _ (by rw [hsa]; simp))
      have hwf := anchorFold_wf (ocrWords.map normalizeWordForMatching).length rest
        ⟨a0.ocrIdx, a0.ocrIdx, a0.ocrIdx, a0.ocrIdx, 1, 1⟩
        (fun x hx => anchorCandidates_ocrIdx_lt _ _ x
          (mem_sortAnchors _ _ (by rw [hsa]; simp [hx])))
        ⟨le_refl _, ha0, le_refl _, ha0, le_refl _⟩
      obtain ⟨w1, w2, _, _, w5⟩ := hwf
      rw [hco] at w2
      refine ⟨by simp, by simpa using w1, by simpa using w2, w5⟩
  · right
    rcases findBestAlignment_wf (cleanSpokenForRange spokenWords)
        (ocrWords.map normalizeWordForMatching) with ⟨hf, hl⟩ | ⟨h1, h2, h3, h4⟩
    · exact absurd (Or.inl hf) hdp
    · rw [hco] at h3
      exact ⟨h1, h2, h3, le_trans one_le_two h4⟩

/-- C10: whenever `findSpokenRangeInOCR` returns anything other than the
sentinel — by the DP path or the anchor fallback — the result satisfies
`0 ≤ firstIndex ≤ lastIndex < len(ocrWords)` and `matchedCount ≥ 1`. -/
theorem C10_nonsentinel_wellformed (spokenWords : List SpokenWord)
    (ocrWords : List String)
    (h : (findSpokenRangeInOCR spokenWords ocrWords).firstIndex ≠ -1 ∨
         (findSpokenRangeInOCR spokenWords ocrWords).lastIndex ≠ -1) :
    0 ≤ (findSpokenRangeInOCR spokenWords ocrWords).firstIndex ∧
    (findSpokenRangeInOCR spokenWords ocrWords).firstIndex ≤
      (findSpokenRangeInOCR spokenWords ocrWords).lastIndex ∧
    (findSpokenRangeInOCR spokenWords ocrWords).lastIndex < (ocrWords.length : Int) ∧
    1 ≤ (findSpokenRangeInOCR spokenWords ocrWords).matchedCount := by
  rcases findSpokenRangeInOCR_cases spokenWords ocrWords with hs | hwf
  · rw [hs] at h
    rcases h with h | h <;> simp at h
  · exact hwf

/-- C10 witness: the theorem applied to a concrete input matched through
the DP path. -/
theorem C10_nonsentinel_wellformed_witness :
    ((findSpokenRangeInOCR [⟨"cat", none, none, 9/10⟩, ⟨"sat", none, none, 9/10⟩]
        ["cat", "sat"]).firstIndex ≠ -1 ∨
     (findSpokenRangeInOCR [⟨"cat", none, none, 9/10⟩, ⟨"sat", none, none, 9/10⟩]
        ["cat", "sat"]).lastIndex ≠ -1) ∧
    (0 ≤ (findSpokenRangeInOCR [⟨"cat", none, none, 9/10⟩, ⟨"sat", none, none, 9/10⟩]
        ["cat", "sat"]).firstIndex ∧
     (findSpokenRangeInOCR [⟨"cat", none, none, 9/10⟩, ⟨"sat", none, none, 9/10⟩]
        ["cat", "sat"]).firstIndex ≤
       (findSpokenRangeInOCR [⟨"cat", none, none, 9/10⟩, ⟨"sat", none, none, 9/10⟩]
        ["cat", "sat"]).lastIndex ∧
     (findSpokenRangeInOCR [⟨"cat", none, none, 9/10⟩, ⟨"sat", none, none, 9/10⟩]
        ["cat", "sat"]).lastIndex < ((["cat", "sat"] : List String).length : Int) ∧
     1 ≤ (findSpokenRangeInOCR [⟨"cat", none, none, 9/10⟩, ⟨"sat", none, none, 9/10⟩]
        ["cat", "sat"]).matchedCount) :=
  ⟨by decide,
   C10_nonsentinel_wellformed [⟨"cat", none, none, 9/10⟩, ⟨"sat", none, none, 9/10⟩]
     ["cat", "sat"] (by decide)⟩

/-- C2, counterexample: with spoken `["elephant"]` and OCR `["elephant"]`
the banded DP finds no qualifying candidate (a single spoken word can
reach `matchCount` at most 1), yet `findSpokenRangeInOCR` does *not*
return the sentinel: the anchor fallback produces the range `0..0`.  The
claimed "sentinel iff no qualifying DP range" equivalence is therefore
false. -/
theorem C2_sentinel_counterexample :
    ((findBestAlignment (cleanSpokenForRange [⟨"elephant", none, none, 9/10⟩])
        (["elephant"].map normalizeWordForMatching)).firstOCRIndex = -1 ∨
     (findBestAlignment (cleanSpokenForRange [⟨"elephant", none, none, 9/10⟩])
        (["elephant"].map normalizeWordForMatching)).lastOCRIndex = -1) ∧
    findSpokenRangeInOCR [⟨"elephant", none, none, 9/10⟩] ["elephant"] = ⟨0, 0, 1⟩ ∧
    ¬ ((findSpokenRangeInOCR [⟨"elephant", none, none, 9/10⟩] ["elephant"]).firstIndex
        = -1 ∧
       (findSpokenRangeInOCR [⟨"elephant", none, none, 9/10⟩] ["elephant"]).lastIndex
        = -1) := by
  decide

/-- C2 (amended): `findSpokenRangeInOCR` returns the sentinel exactly when
the cleaned spoken or OCR list is empty, or the banded DP finds no
qualifying candidate *and* the anchor fallback finds no anchors. -/
theorem C2_sentinel_iff (spokenWords : List SpokenWord) (ocrWords : List String) :
    ((findSpokenRangeInOCR spokenWords ocrWords).firstIndex = -1 ∧
     (findSpokenRangeInOCR spokenWords ocrWords).lastIndex = -1) ↔
    ((cleanSpokenForRange spokenWords).length = 0 ∨
     (ocrWords.map normalizeWordForMatching).length = 0 ∨
     (((findBestAlignment (cleanSpokenForRange spokenWords)
          (ocrWords.map normalizeWordForMatching)).firstOCRIndex = -1 ∨
       (findBestAlignment (cleanSpokenForRange spokenWords)
          (ocrWords.map normalizeWordForMatching)).lastOCRIndex = -1) ∧
      anchorCandidates (cleanSpokenForRange spokenWords)
        (ocrWords.map normalizeWordForMatching) = [])) := by
  unfold findSpokenRangeInOCR
  dsimp only
  split_ifs with hempty hdp
  · exact iff_of_true ⟨rfl, rfl⟩ (by tauto)
  · cases hsa : sortAnchors (anchorCandidates (cleanSpokenForRange spokenWords)
        (ocrWords.map normalizeWordForMatching)) with
    | nil =>
      have hanc := (sortAnchors_eq_nil_iff _).mp hsa
      unfold findRangeByAnchors
      rw [hsa]
      exact iff_of_true ⟨rfl, rfl⟩ (Or.inr (Or.inr ⟨hdp, hanc⟩))
    | cons a0 rest =>
      have hanc : anchorCandidates (cleanSpokenForRange spokenWords)
          (ocrWords.map normalizeWordForMatching) ≠ [] := by
        intro hc
        rw [(sortAnchors_eq_nil_iff _).mpr hc] at hsa
        exact List.noConfusion hsa
      unfold findRangeByAnchors
      rw [hsa]
      dsimp only
      refine iff_of_false (fun hc => ?_) (fun hc => ?_)
      · have h0 : (0 : Int) ≤ ((rest.foldl anchorStep
            ⟨a0.ocrIdx, a0.ocrIdx, a0.ocrIdx, a0.ocrIdx, 1, 1⟩).bestStart : Int) :=
          Int.natCast_nonneg _
        omega
      · rcases hc with hc | hc | hc
        · exact hempty (Or.inl hc)
        · exact hempty (Or.inr hc)
        · exact hanc hc.2
  · refine iff_of_false (fun hc => ?_) (fun hc => ?_)
    · exact hdp (Or.inl hc.1)
    · rcases hc with hc | hc | hc
      · exact hempty (Or.inl hc)
      · exact hempty (Or.inr hc)
      · exact hdp hc.1
